import Mathlib

/-!
# Formal model of `shotcheck.py`

A shallow embedding of the screenshot-comparison tool `src/shotcheck.py`:
prefix extraction (`extract_prefix`), directory indexing (`collect_images`),
the pixel-level differencer (`create_difference_image`), and the
comparison/reporting driver (`compare_directories`), together with theorems
settling the specification claims about them.

Images are modelled as flat lists of RGB pixels (the two-dimensional layout
plays no role in the mask/flag computations).  Filesystem directories are
modelled as lists of entry names; per-pair image processing and saving are
modelled by outcome oracles (`Except`-valued functions), since the actual
decode/encode work happens inside a third-party library.
-/

/-- An RGB pixel: three channel values on the 0–255 scale, as produced by
`Image.open(path).convert('RGB')`. -/
structure Pixel where
  r : Nat
  g : Nat
  b : Nat
deriving DecidableEq, Repr, Inhabited

/-- Absolute difference of two channel values: what
`ImageChops.difference(img1, img2)` computes in each channel of each pixel. -/
def channelDiff (a b : Nat) : Nat := max a b - min a b

/-- Channel-wise absolute difference of two pixels (one pixel of `diff` in
`create_difference_image`). -/
def pixelDiff (p q : Pixel) : Pixel :=
  ⟨channelDiff p.r q.r, channelDiff p.g q.g, channelDiff p.b q.b⟩

/-- The fixed difference threshold (`threshold = 10` in
`create_difference_image`). -/
def threshold : Nat := 10

/-- One entry of the difference mask: `np.any(diff_array > threshold, axis=2)`
restricted to a single pixel `d` of the channel-difference image. -/
def maskPixel (d : Pixel) : Bool :=
  decide (threshold < d.r) || decide (threshold < d.g) || decide (threshold < d.b)

/-- The per-pixel boolean difference mask `diff_mask` for two images of equal
size, represented as flat pixel lists. -/
def diffMask (img1 img2 : List Pixel) : List Bool :=
  List.zipWith (fun p q => maskPixel (pixelDiff p q)) img1 img2

/-- The flag `has_difference = np.any(diff_mask)`. -/
def hasDifference (img1 img2 : List Pixel) : Bool :=
  (diffMask img1 img2).any id

/-- The grayscale luminance of a pixel:
`np.dot(img1_array[..., :3], [0.299, 0.587, 0.114])` followed by
`astype(np.uint8)` (truncation toward zero), modelled as the exact integer
computation `(299*r + 587*g + 114*b) / 1000`.  (The float64 rounding of the
three weight constants is abstracted to exact rational arithmetic; no claim
depends on the exact luminance value.) -/
def grayValue (p : Pixel) : Nat := (299 * p.r + 587 * p.g + 114 * p.b) / 1000

/-- A grayscale pixel: the luminance value replicated across the three
channels (`np.stack([img1_gray, img1_gray, img1_gray], axis=2)`). -/
def grayPixel (p : Pixel) : Pixel := ⟨grayValue p, grayValue p, grayValue p⟩

/-- The highlight color `[255, 50, 50]` written into masked pixels. -/
def highlightColor : Pixel := ⟨255, 50, 50⟩

/-- The difference panel `result_array`: the grayscale rendition of the first
image with every masked pixel forced to the highlight color
(`result_array[diff_mask] = [255, 50, 50]`). -/
def diffPanel (img1 img2 : List Pixel) : List Pixel :=
  List.zipWith
    (fun p q => if maskPixel (pixelDiff p q) then highlightColor else grayPixel p)
    img1 img2

theorem channelDiff_eq_natAbs (a b : Nat) :
    channelDiff a b = ((a : Int) - (b : Int)).natAbs := by
  unfold channelDiff
  omega

theorem channelDiff_comm (a b : Nat) : channelDiff a b = channelDiff b a := by
  unfold channelDiff
  omega

theorem maskPixel_pixelDiff_self (p : Pixel) : maskPixel (pixelDiff p p) = false := by
  simp [maskPixel, pixelDiff, channelDiff, threshold]

/-- C1: a mask pixel is set iff at least one of the three channel absolute
differences strictly exceeds 10 (a channel difference of exactly 10 or less
never sets it), and `has_difference` is true iff at least one mask entry is
true. -/
theorem C1_mask_and_flag (img1 img2 : List Pixel) (i : Nat)
    (h1 : i < img1.length) (h2 : i < img2.length) :
    ((diffMask img1 img2).getD i false = true ↔
      (10 < (((img1.getD i default).r : Int) - ((img2.getD i default).r : Int)).natAbs ∨
       10 < (((img1.getD i default).g : Int) - ((img2.getD i default).g : Int)).natAbs ∨
       10 < (((img1.getD i default).b : Int) - ((img2.getD i default).b : Int)).natAbs)) ∧
    (hasDifference img1 img2 = true ↔
      ∃ j, (diffMask img1 img2).getD j false = true) := by
  have hlen : i < (diffMask img1 img2).length := by
    simp [diffMask, List.length_zipWith]
    omega
  constructor
  · rw [List.getD_eq_getElem _ _ hlen, List.getD_eq_getElem _ _ h1,
      List.getD_eq_getElem _ _ h2]
    simp only [diffMask, List.getElem_zipWith]
    simp [maskPixel, pixelDiff, channelDiff_eq_natAbs, threshold]
    tauto
  · constructor
    · intro h
      rcases List.any_eq_true.mp h with ⟨x, hx, hid⟩
      rcases List.mem_iff_getElem.mp hx with ⟨j, hj, hget⟩
      exact ⟨j, by rw [List.getD_eq_getElem _ _ hj, hget]; exact hid⟩
    · intro ⟨j, hj⟩
      by_cases hlt : j < (diffMask img1 img2).length
      · refine List.any_eq_true.mpr ⟨(diffMask img1 img2).getD j false, ?_, hj⟩
        rw [List.getD_eq_getElem _ _ hlt]
        exact List.getElem_mem _
      · rw [List.getD_eq_default _ _ (Nat.le_of_not_lt hlt)] at hj
        exact absurd hj (by simp)

/-- Concrete instantiation of `C1_mask_and_flag` (images `[(0,0,0)]` and
`[(11, 0, 0)]`, pixel index 0). -/
theorem C1_mask_and_flag_witness :
    (0 < ([(⟨0, 0, 0⟩ : Pixel)] : List Pixel).length ∧
     0 < ([(⟨11, 0, 0⟩ : Pixel)] : List Pixel).length) ∧
    ((diffMask [⟨0, 0, 0⟩] [⟨11, 0, 0⟩]).getD 0 false = true ↔
      (10 < ((([(⟨0, 0, 0⟩ : Pixel)] : List Pixel).getD 0 default).r -
        ((([(⟨11, 0, 0⟩ : Pixel)] : List Pixel).getD 0 default).r : Int)).natAbs ∨
       10 < ((([(⟨0, 0, 0⟩ : Pixel)] : List Pixel).getD 0 default).g -
        ((([(⟨11, 0, 0⟩ : Pixel)] : List Pixel).getD 0 default).g : Int)).natAbs ∨
       10 < ((([(⟨0, 0, 0⟩ : Pixel)] : List Pixel).getD 0 default).b -
        ((([(⟨11, 0, 0⟩ : Pixel)] : List Pixel).getD 0 default).b : Int)).natAbs)) ∧
    (hasDifference [⟨0, 0, 0⟩] [⟨11, 0, 0⟩] = true ↔
      ∃ j, (diffMask [⟨0, 0, 0⟩] [⟨11, 0, 0⟩]).getD j false = true) :=
  ⟨⟨by decide, by decide⟩,
   C1_mask_and_flag [⟨0, 0, 0⟩] [⟨11, 0, 0⟩] 0 (by decide) (by decide)⟩

/-- C5: comparing an image against an identical copy of itself yields
`has_difference = false`, a difference panel equal to the grayscale rendition
of the source, and no pixel of that panel equals the highlight color
`(255, 50, 50)`. -/
theorem C5_self_comparison (img : List Pixel) :
    hasDifference img img = false ∧
    diffPanel img img = img.map grayPixel ∧
    ∀ p ∈ diffPanel img img, p ≠ highlightColor := by
  have hzip : ∀ (f : Pixel → Pixel → Bool), List.zipWith f img img =
      img.map (fun p => f p p) := by
    intro f
    induction img with
    | nil => rfl
    | cons a l ih => simp [List.zipWith, ih]
  have hpanel : diffPanel img img = img.map grayPixel := by
    unfold diffPanel
    have : List.zipWith
        (fun p q => if maskPixel (pixelDiff p q) then highlightColor else grayPixel p)
        img img =
        img.map (fun p => if maskPixel (pixelDiff p p) then highlightColor else grayPixel p) := by
      induction img with
      | nil => rfl
      | cons a l ih => simp [List.zipWith, ih]
    rw [this]
    apply List.map_congr_left
    intro p _
    rw [maskPixel_pixelDiff_self]
    simp
  refine ⟨?_, hpanel, ?_⟩
  · unfold hasDifference diffMask
    rw [hzip]
    simp [maskPixel_pixelDiff_self]
  · intro p hp
    rw [hpanel] at hp
    rcases List.mem_map.mp hp with ⟨q, _, hq⟩
    intro hcontra
    rw [← hq] at hcontra
    have hr : grayValue q = 255 := congrArg Pixel.r hcontra
    have hg : grayValue q = 50 := congrArg Pixel.g hcontra
    omega

/-- C9: for two images of identical dimensions (no resizing happens), the
`has_difference` flag does not depend on the argument order. -/
theorem C9_flag_symmetric (img1 img2 : List Pixel)
    (h : img1.length = img2.length) :
    hasDifference img1 img2 = hasDifference img2 img1 := by
  unfold hasDifference diffMask
  rw [List.zipWith_comm_of_comm]
  intro p q
  simp [maskPixel, pixelDiff, channelDiff_comm]

/-- Concrete instantiation of `C9_flag_symmetric` (two one-pixel images of
equal dimensions). -/
theorem C9_flag_symmetric_witness :
    ([(⟨1, 2, 3⟩ : Pixel)] : List Pixel).length =
      ([(⟨30, 2, 3⟩ : Pixel)] : List Pixel).length ∧
    hasDifference [⟨1, 2, 3⟩] [⟨30, 2, 3⟩] = hasDifference [⟨30, 2, 3⟩] [⟨1, 2, 3⟩] :=
  ⟨by decide, C9_flag_symmetric [⟨1, 2, 3⟩] [⟨30, 2, 3⟩] (by decide)⟩

/-- The inclusive codepoint ranges of the Unicode general category `Nd`
(decimal digit), per the Unicode 14.0 character database used by CPython
3.11.  On a `str` pattern without `re.ASCII`, Python's `\d` matches exactly
the characters of this category. -/
def ndRanges : List (Nat × Nat) :=
  [(0x30, 0x39), (0x660, 0x669), (0x6F0, 0x6F9), (0x7C0, 0x7C9),
   (0x966, 0x96F), (0x9E6, 0x9EF), (0xA66, 0xA6F), (0xAE6, 0xAEF),
   (0xB66, 0xB6F), (0xBE6, 0xBEF), (0xC66, 0xC6F), (0xCE6, 0xCEF),
   (0xD66, 0xD6F), (0xDE6, 0xDEF), (0xE50, 0xE59), (0xED0, 0xED9),
   (0xF20, 0xF29), (0x1040, 0x1049), (0x1090, 0x1099), (0x17E0, 0x17E9),
   (0x1810, 0x1819), (0x1946, 0x194F), (0x19D0, 0x19D9), (0x1A80, 0x1A89),
   (0x1A90, 0x1A99), (0x1B50, 0x1B59), (0x1BB0, 0x1BB9), (0x1C40, 0x1C49),
   (0x1C50, 0x1C59), (0xA620, 0xA629), (0xA8D0, 0xA8D9), (0xA900, 0xA909),
   (0xA9D0, 0xA9D9), (0xA9F0, 0xA9F9), (0xAA50, 0xAA59), (0xABF0, 0xABF9),
   (0xFF10, 0xFF19), (0x104A0, 0x104A9), (0x10D30, 0x10D39), (0x11066, 0x1106F),
   (0x110F0, 0x110F9), (0x11136, 0x1113F), (0x111D0, 0x111D9), (0x112F0, 0x112F9),
   (0x11450, 0x11459), (0x114D0, 0x114D9), (0x11650, 0x11659), (0x116C0, 0x116C9),
   (0x11730, 0x11739), (0x118E0, 0x118E9), (0x11950, 0x11959), (0x11C50, 0x11C59),
   (0x11D50, 0x11D59), (0x11DA0, 0x11DA9), (0x16A60, 0x16A69), (0x16AC0, 0x16AC9),
   (0x16B50, 0x16B59), (0x1D7CE, 0x1D7FF), (0x1E140, 0x1E149), (0x1E2F0, 0x1E2F9),
   (0x1E950, 0x1E959), (0x1FBF0, 0x1FBF9)]

/-- Is `c` a Unicode decimal digit (general category `Nd`) — the character
class matched by `\d` in Python's `re` on a `str` pattern? -/
def isDigitNd (c : Char) : Bool :=
  ndRanges.any (fun r => decide (r.1 ≤ c.toNat) && decide (c.toNat ≤ r.2))

/-- Does a character list match the fixed-shape timestamp suffix of the regex
`_\d{8}_\d{6}\.png` (length 20: an underscore, 8 digits, an underscore,
6 digits, then `.png`)?  `\d` is any Unicode decimal digit (`isDigitNd`),
not just ASCII `0`–`9`. -/
def isTsSuffix (cs : List Char) : Bool :=
  decide (cs.length = 20) &&
  (cs.getD 0 ' ' == '_') &&
  ((List.range 8).all fun i => isDigitNd (cs.getD (1 + i) ' ')) &&
  (cs.getD 9 ' ' == '_') &&
  ((List.range 6).all fun i => isDigitNd (cs.getD (10 + i) ' ')) &&
  (cs.getD 16 ' ' == '.') && (cs.getD 17 ' ' == 'p') &&
  (cs.getD 18 ' ' == 'n') && (cs.getD 19 ' ' == 'g')

/-- Does the string (as a character list) end in the timestamp suffix? -/
def endsWithTs (cs : List Char) : Bool :=
  decide (20 ≤ cs.length) && isTsSuffix (cs.drop (cs.length - 20))

/-- The function `extract_prefix`: `re.sub(r'_\d{8}_\d{6}\.png$', '', filename)`.

With `re.MULTILINE` unset, Python's `$` matches at the very end of the string
and also just before a newline that ends the string, so the substitution also
fires when the timestamp suffix is followed by one trailing `'\n'` (the
newline itself is kept).  At most one match is possible since the pattern has
fixed length 20 and must end at a `$` position. -/
def extract_prefix (filename : String) : String :=
  if endsWithTs filename.data then
    String.mk (filename.data.take (filename.data.length - 20))
  else if (filename.data.getLast? == some '\n') && endsWithTs filename.data.dropLast then
    String.mk (filename.data.dropLast.take (filename.data.dropLast.length - 20) ++ ['\n'])
  else
    filename

theorem isTsSuffix_length {cs : List Char} (h : isTsSuffix cs = true) :
    cs.length = 20 := by
  simp only [isTsSuffix, Bool.and_eq_true, decide_eq_true_eq] at h
  exact h.1.1.1.1.1.1.1.1

theorem isTsSuffix_getLast {cs : List Char} (h : isTsSuffix cs = true) :
    cs.getLast? = some 'g' := by
  have h20 := isTsSuffix_length h
  have hg : cs.getD 19 ' ' = 'g' := by
    simp only [isTsSuffix, Bool.and_eq_true, beq_iff_eq] at h
    exact h.2
  have h19 : 19 < cs.length := by omega
  rw [List.getLast?_eq_getElem?, h20]
  rw [List.getD_eq_getElem?_getD] at hg
  simpa [List.getElem?_eq_getElem h19, h20] using hg

theorem endsWithTs_iff (u : List Char) :
    endsWithTs u = true ↔ ∃ l ts, u = l ++ ts ∧ isTsSuffix ts = true := by
  constructor
  · intro h
    simp only [endsWithTs, Bool.and_eq_true, decide_eq_true_eq] at h
    exact ⟨u.take (u.length - 20), u.drop (u.length - 20),
      (List.take_append_drop _ u).symm, h.2⟩
  · intro ⟨l, ts, hu, hts⟩
    have h20 := isTsSuffix_length hts
    have hdrop : (l ++ ts).drop ((l ++ ts).length - 20) = ts := by
      have : (l ++ ts).length - 20 = l.length := by
        simp [List.length_append, h20]
      rw [this, List.drop_left]
    simp only [endsWithTs, hu, Bool.and_eq_true, decide_eq_true_eq]
    refine ⟨by simp [List.length_append, h20], by rw [hdrop]; exact hts⟩

theorem not_endsWithTs_concat_newline (v : List Char) :
    endsWithTs (v ++ ['\n']) = false := by
  by_contra hcontra
  have h : endsWithTs (v ++ ['\n']) = true := by
    revert hcontra
    cases endsWithTs (v ++ ['\n']) <;> simp
  rcases (endsWithTs_iff _).mp h with ⟨l, ts, hu, hts⟩
  have hne : ts ≠ [] := by
    intro hnil
    have := isTsSuffix_length hts
    rw [hnil] at this
    simp at this
  have hlast1 : (v ++ ['\n']).getLast? = some '\n' := by simp
  have hlast2 : (l ++ ts).getLast? = some 'g' := by
    rw [List.getLast?_append_of_ne_nil l hne]
    exact isTsSuffix_getLast hts
  rw [hu, hlast2] at hlast1
  simp at hlast1

theorem extract_prefix_strip (base : String) (ts : List Char)
    (hts : isTsSuffix ts = true) :
    extract_prefix (base ++ String.mk ts) = base := by
  have h20 := isTsSuffix_length hts
  have hdata : (base ++ String.mk ts).data = base.data ++ ts :=
    String.data_append base (String.mk ts)
  have hends : endsWithTs (base.data ++ ts) = true :=
    (endsWithTs_iff _).mpr ⟨base.data, ts, rfl, hts⟩
  unfold extract_prefix
  rw [hdata, hends]
  simp only [if_true]
  have hlen : (base.data ++ ts).length - 20 = base.data.length := by
    simp [List.length_append, h20]
  rw [hlen, List.take_left]

theorem extract_prefix_strip_newline (base : String) (ts : List Char)
    (hts : isTsSuffix ts = true) :
    extract_prefix (base ++ String.mk ts ++ "\n") = base ++ "\n" := by
  have h20 := isTsSuffix_length hts
  have hdata : (base ++ String.mk ts ++ "\n").data = (base.data ++ ts) ++ ['\n'] := by
    rw [String.data_append, String.data_append]
  have hends : endsWithTs (base.data ++ ts) = true :=
    (endsWithTs_iff _).mpr ⟨base.data, ts, rfl, hts⟩
  unfold extract_prefix
  rw [hdata, not_endsWithTs_concat_newline]
  simp only [Bool.false_eq_true, if_false, List.getLast?_concat, List.dropLast_concat,
    beq_self_eq_true, Bool.true_and, hends, if_true]
  have hlen : (base.data ++ ts).length - 20 = base.data.length := by
    simp [List.length_append, h20]
  rw [hlen, List.take_left]
  show String.mk (base.data ++ ['\n']) = base ++ "\n"
  rw [show (base ++ "\n") = String.mk (base.data ++ "\n".data) from rfl]

theorem extract_prefix_id (s : String)
    (h : ∀ l ts, isTsSuffix ts = true → s.data ≠ l ++ ts ∧ s.data ≠ l ++ ts ++ ['\n']) :
    extract_prefix s = s := by
  have h1 : endsWithTs s.data = false := by
    by_contra hcontra
    have h1' : endsWithTs s.data = true := by
      revert hcontra
      cases endsWithTs s.data <;> simp
    rcases (endsWithTs_iff _).mp h1' with ⟨l, ts, hu, hts⟩
    exact (h l ts hts).1 hu
  have h2 : ((s.data.getLast? == some '\n') && endsWithTs s.data.dropLast) = false := by
    by_contra hcontra
    have h2' : s.data.getLast? = some '\n' ∧ endsWithTs s.data.dropLast = true := by
      revert hcontra
      cases hl : s.data.getLast? == some '\n' <;>
        cases he : endsWithTs s.data.dropLast <;> simp_all
    rcases (endsWithTs_iff _).mp h2'.2 with ⟨l, ts, hu, hts⟩
    have hsplit : s.data.dropLast ++ ['\n'] = s.data := by
      rcases hlist : s.data with _ | _
      · rw [hlist] at h2'
        simp at h2'
      · rw [← hlist]
        generalize s.data = u at h2' ⊢
        induction u using List.reverseRecOn with
        | nil => simp at h2'
        | append_singleton v a _ =>
          have : a = '\n' := by
            have := h2'.1
            simp at this
            exact this
          simp [this]
    rw [hu] at hsplit
    exact (h l ts hts).2 hsplit.symm
  unfold extract_prefix
  rw [h1, h2]
  simp

/-- C2 counterexample: `"a_12345678_123456.png\n"` does not end in the
timestamp-suffix shape (its last character is a newline), yet `extract_prefix`
does not return it unchanged: Python's `$` also matches just before a trailing
newline, so the suffix is stripped and `"a\n"` is returned. -/
theorem C2_identity_counterexample :
    endsWithTs ("a_12345678_123456.png\n".data) = false ∧
    extract_prefix "a_12345678_123456.png\n" = "a\n" ∧
    "a\n" ≠ "a_12345678_123456.png\n" := by
  refine ⟨by decide, by decide, by decide⟩

/-- C2 (amended): `extract_prefix` strips a trailing `_<8 digits>_<6 digits>.png`
suffix, yielding exactly the base; it also strips that suffix when it is
followed by one trailing newline (keeping the newline); on every string that
neither ends in the suffix nor in the suffix plus a trailing newline it is the
identity.  `endsWithTs` is characterised against the spec's suffix shape by
the first conjunct. -/
theorem C2_extract_amended (base s : String) (ts : List Char)
    (hts : isTsSuffix ts = true)
    (h1 : endsWithTs s.data = false)
    (h2 : s.data.getLast? = some '\n' → endsWithTs s.data.dropLast = false) :
    (∀ u : List Char,
      endsWithTs u = true ↔ ∃ l ts2, u = l ++ ts2 ∧ isTsSuffix ts2 = true) ∧
    extract_prefix (base ++ String.mk ts) = base ∧
    extract_prefix (base ++ String.mk ts ++ "\n") = base ++ "\n" ∧
    extract_prefix s = s := by
  refine ⟨endsWithTs_iff, extract_prefix_strip base ts hts,
    extract_prefix_strip_newline base ts hts, ?_⟩
  apply extract_prefix_id
  intro l ts2 hts2
  constructor
  · intro heq
    have : endsWithTs s.data = true := (endsWithTs_iff _).mpr ⟨l, ts2, heq, hts2⟩
    rw [h1] at this
    exact absurd this (by simp)
  · intro heq
    have hlast : s.data.getLast? = some '\n' := by
      rw [heq]
      simp
    have hdl : s.data.dropLast = l ++ ts2 := by
      rw [heq]
      simp
    have : endsWithTs s.data.dropLast = true := by
      rw [hdl]
      exact (endsWithTs_iff _).mpr ⟨l, ts2, rfl, hts2⟩
    rw [h2 hlast] at this
    exact absurd this (by simp)

/-- Concrete instantiation of `C2_extract_amended` (base `"a"`, a timestamp
suffix written with fullwidth Unicode digits — which Python's `\d` matches —
and the plain string `"a.png"`). -/
theorem C2_extract_amended_witness :
    (isTsSuffix ("_０１２３４５６７_１２３４５６.png".data) = true ∧
     endsWithTs ("a.png".data) = false) ∧
    ((∀ u : List Char,
      endsWithTs u = true ↔ ∃ l ts2, u = l ++ ts2 ∧ isTsSuffix ts2 = true) ∧
    extract_prefix ("a" ++ String.mk ("_０１２３４５６７_１２３４５６.png".data)) = "a" ∧
    extract_prefix ("a" ++ String.mk ("_０１２３４５６７_１２３４５６.png".data) ++ "\n") =
      "a" ++ "\n" ∧
    extract_prefix "a.png" = "a.png") :=
  ⟨⟨by decide, by decide⟩,
   C2_extract_amended "a" "a.png" ("_０１２３４５６７_１２３４５６.png".data)
     (by decide) (by decide) (by decide)⟩

/-- Does a character list end in `.png`?  (`directory.glob('*.png')`:
`fnmatch` translates the pattern to "any name ending in `.png`",
case-sensitively on a POSIX filesystem.) -/
def endsWithPng (cs : List Char) : Bool :=
  decide (4 ≤ cs.length) && (cs.drop (cs.length - 4) == ['.', 'p', 'n', 'g'])

/-- Is a directory entry matched by `directory.glob('*.png')`? -/
def isPngEntry (name : String) : Bool := endsWithPng name.data

/-- One `images[prefix] = file` assignment of the dictionary built by
`collect_images`. -/
def indexInsert (m : String → Option String) (file : String) :
    String → Option String :=
  fun k => if extract_prefix file == k then some file else m k

/-- The function `collect_images`: scan a single-level directory listing, keep the `*.png`
entries in enumeration order, and index each by its extracted name; a later
entry with the same key overwrites an earlier one.  The dictionary is
modelled as a lookup function. -/
def collect_images (entries : List String) : String → Option String :=
  (entries.filter isPngEntry).foldl indexInsert (fun _ => none)

/-- The key multiset of the index: the extracted names of the `*.png`
entries, in enumeration order. -/
def indexKeys (entries : List String) : List String :=
  (entries.filter isPngEntry).map extract_prefix

theorem foldl_indexInsert (k : String) (l : List String)
    (m : String → Option String) :
    (l.foldl indexInsert m) k =
      Option.or ((l.filter (fun f => extract_prefix f == k)).getLast?) (m k) := by
  induction l using List.reverseRecOn with
  | nil => simp
  | append_singleton l f ih =>
    rw [List.foldl_append]
    simp only [List.foldl_cons, List.foldl_nil, List.filter_append]
    by_cases hf : ( extract_prefix f == k) = true
    · simp only [indexInsert, hf, if_true, List.filter_cons, List.filter_nil]
      rw [List.getLast?_concat]
      simp
    · simp only [indexInsert, hf, if_false]
      rw [ih]
      simp only [List.filter_cons, List.filter_nil, hf]
      simp

theorem collect_images_eq_getLast? (entries : List String) (k : String) :
    collect_images entries k =
      (((entries.filter isPngEntry).filter (fun f => extract_prefix f == k)).getLast?) := by
  unfold collect_images
  rw [foldl_indexInsert]
  simp

theorem collect_images_isSome_iff (entries : List String) (k : String) :
    (collect_images entries k).isSome = true ↔ k ∈ indexKeys entries := by
  rw [collect_images_eq_getLast?]
  unfold indexKeys
  rw [List.getLast?_isSome]
  constructor
  · intro hne
    rcases List.exists_mem_of_ne_nil _ hne with ⟨f, hf⟩
    rcases List.mem_filter.mp hf with ⟨hmem, hpred⟩
    exact List.mem_map.mpr ⟨f, hmem, by simpa using hpred⟩
  · intro hmem
    rcases List.mem_map.mp hmem with ⟨f, hf, hpref⟩
    intro hnil
    have : f ∈ List.filter (fun f => extract_prefix f == k)
        (entries.filter isPngEntry) :=
      List.mem_filter.mpr ⟨hf, by simpa using hpref⟩
    rw [hnil] at this
    exact absurd this (List.not_mem_nil f)

/-- C8: `collect_images` indexes exactly the `.png` entries of the
single-level listing, keyed by `extract_prefix` of the entry name; every value
returned is a `.png` entry of the directory whose extracted name is the key,
and when several entries share a key the last enumerated one wins. -/
theorem C8_collect_images (entries : List String) (k : String) :
    ((collect_images entries k).isSome = true ↔ k ∈ indexKeys entries) ∧
    collect_images entries k =
      (((entries.filter isPngEntry).filter (fun f => extract_prefix f == k)).getLast?) ∧
    (∀ f, collect_images entries k = some f →
      f ∈ entries ∧ isPngEntry f = true ∧ extract_prefix f = k) := by
  refine ⟨collect_images_isSome_iff entries k, collect_images_eq_getLast? entries k, ?_⟩
  intro f hsome
  rw [collect_images_eq_getLast?] at hsome
  have hmem := List.mem_of_getLast?_eq_some hsome
  rcases List.mem_filter.mp hmem with ⟨hmem1, hpred⟩
  rcases List.mem_filter.mp hmem1 with ⟨hmem2, hpng⟩
  exact ⟨hmem2, hpng, by simpa using hpred⟩

/-- Lexicographic comparison of character lists by code point: the order by
which Python compares strings (`sorted` on `str`). -/
def lexLe : List Char → List Char → Bool
  | [], _ => true
  | _ :: _, [] => false
  | a :: as, b :: bs =>
    if a.toNat < b.toNat then true
    else if b.toNat < a.toNat then false
    else lexLe as bs

/-- String comparison by code-point lexicographic order. -/
def strLe (a b : String) : Bool := lexLe a.data b.data

theorem lexLe_total (a : List Char) : ∀ b, lexLe a b = true ∨ lexLe b a = true := by
  induction a with
  | nil => intro b; left; simp [lexLe]
  | cons x xs ih =>
    intro b
    cases b with
    | nil => right; simp [lexLe]
    | cons y ys =>
      rcases Nat.lt_trichotomy x.toNat y.toNat with h | h | h
      · left; simp [lexLe, h]
      · have h1 : ¬ x.toNat < y.toNat := by omega
        have h2 : ¬ y.toNat < x.toNat := by omega
        rcases ih ys with h' | h'
        · left; simp [lexLe, h1, h2, h']
        · right; simp [lexLe, h1, h2, h']
      · right; simp [lexLe, h]

theorem lexLe_trans (a : List Char) :
    ∀ b c, lexLe a b = true → lexLe b c = true → lexLe a c = true := by
  induction a with
  | nil => intro b c _ _; simp [lexLe]
  | cons x xs ih =>
    intro b c hab hbc
    cases b with
    | nil => simp [lexLe] at hab
    | cons y ys =>
      cases c with
      | nil => simp [lexLe] at hbc
      | cons z zs =>
        simp only [lexLe] at hab hbc ⊢
        rcases Nat.lt_trichotomy x.toNat y.toNat with h1 | h1 | h1 <;>
          rcases Nat.lt_trichotomy y.toNat z.toNat with h2 | h2 | h2
        all_goals
          first
          | (have hxz : x.toNat < z.toNat := by omega
             simp [hxz])
          | skip
        all_goals
          first
          | (exfalso
             revert hab
             simp [show ¬ x.toNat < y.toNat by omega, show y.toNat < x.toNat by omega])
          | skip
        all_goals
          first
          | (exfalso
             revert hbc
             simp [show ¬ y.toNat < z.toNat by omega, show z.toNat < y.toNat by omega])
          | skip
        have hnlt1 : ¬ x.toNat < z.toNat := by omega
        have hnlt2 : ¬ z.toNat < x.toNat := by omega
        simp only [hnlt1, if_false, hnlt2]
        have hab' : lexLe xs ys = true := by
          simpa [show ¬ x.toNat < y.toNat by omega,
            show ¬ y.toNat < x.toNat by omega] using hab
        have hbc' : lexLe ys zs = true := by
          simpa [show ¬ y.toNat < z.toNat by omega,
            show ¬ z.toNat < y.toNat by omega] using hbc
        exact ih ys zs hab' hbc'

instance : IsTotal String (fun a b => strLe a b = true) :=
  ⟨fun a b => lexLe_total a.data b.data⟩

instance : IsTrans String (fun a b => strLe a b = true) :=
  ⟨fun a b c => lexLe_trans a.data b.data c.data⟩

/-- The matched set `sorted(set(images1.keys()) & set(images2.keys()))`: the distinct common
keys of the two indexes, in ascending code-point lexicographic order
(Python's `sorted` on strings). -/
def matchedPrefixes (entries1 entries2 : List String) : List String :=
  List.insertionSort (fun a b => strLe a b = true)
    (((indexKeys entries1).filter (fun k => decide (k ∈ indexKeys entries2))).dedup)

theorem mem_matchedPrefixes (entries1 entries2 : List String) (k : String) :
    k ∈ matchedPrefixes entries1 entries2 ↔
      (collect_images entries1 k).isSome = true ∧
      (collect_images entries2 k).isSome = true := by
  unfold matchedPrefixes
  rw [(List.perm_insertionSort _ _).mem_iff, List.mem_dedup, List.mem_filter,
    collect_images_isSome_iff, collect_images_isSome_iff]
  simp

/-- C3: the matched set computed by `compare_directories` is exactly the
intersection of the two indexes' key sets, and the comparison loop runs over
its elements exactly once each, in ascending code-point lexicographic order
(so processing order and report order are deterministic). -/
theorem C3_matched_sorted (entries1 entries2 : List String) :
    (∀ k, k ∈ matchedPrefixes entries1 entries2 ↔
      (collect_images entries1 k).isSome = true ∧
      (collect_images entries2 k).isSome = true) ∧
    List.Sorted (fun a b => strLe a b = true) (matchedPrefixes entries1 entries2) ∧
    (matchedPrefixes entries1 entries2).Nodup := by
  refine ⟨mem_matchedPrefixes entries1 entries2, ?_, ?_⟩
  · exact List.sorted_insertionSort _ _
  · exact (List.perm_insertionSort _ _).nodup_iff.mpr (List.nodup_dedup _)

/-- Per-pair accumulator of the comparison loop in `compare_directories`:
`processed`, `files_with_diff`, `files_without_diff`, plus bookkeeping of the
save calls issued, the output files written, and the pairs whose errors were
caught and logged by the `except` clause. -/
structure RunState where
  processed : Nat
  filesWithDiff : List String
  filesWithoutDiff : List String
  saveAttempts : List String
  saved : List String
  errors : List String
deriving Repr, DecidableEq

/-- The loop state before the first iteration
(`processed = 0`, empty outcome lists). -/
def initState : RunState := ⟨0, [], [], [], [], []⟩

/-- One iteration of the comparison loop.  The whole of
`create_difference_image` (decode, resize, mask, composite) is modelled by
the oracle `compose` — `Except.ok flag` is a successful composition with
`has_difference = flag` — and `diff_image.save(...)` by the oracle `save`,
taken as atomic (an `Except.error` save writes nothing).  An exception from
either step is caught by the `except` clause: the pair's name is logged to
`errors` and the state is otherwise unchanged; `processed` is incremented
only after a successful save, and the pair then joins exactly one bucket
according to the flag. -/
def processPair (compose : String → Except String Bool)
    (save : String → Except String Unit) (st : RunState) (p : String) : RunState :=
  match compose p with
  | Except.error _ => {st with errors := st.errors ++ [p]}
  | Except.ok hd =>
    match save p with
    | Except.error _ =>
        {st with saveAttempts := st.saveAttempts ++ [p],
                 errors := st.errors ++ [p]}
    | Except.ok _ =>
        if hd then
          {st with saveAttempts := st.saveAttempts ++ [p],
                   saved := st.saved ++ [p ++ "_diff.png"],
                   processed := st.processed + 1,
                   filesWithDiff := st.filesWithDiff ++ [p]}
        else
          {st with saveAttempts := st.saveAttempts ++ [p],
                   saved := st.saved ++ [p ++ "_diff.png"],
                   processed := st.processed + 1,
                   filesWithoutDiff := st.filesWithoutDiff ++ [p]}

/-- The `for prefix in sorted(common_prefixes)` loop of `compare_directories`,
run over an arbitrary name list. -/
def processPairs (compose : String → Except String Bool)
    (save : String → Except String Unit) (ps : List String) : RunState :=
  ps.foldl (processPair compose save) initState

/-- The combined outcome of composing and saving one pair: the first
exception wins, otherwise the `has_difference` flag is returned. -/
def pairOutcome (compose : String → Except String Bool)
    (save : String → Except String Unit) (p : String) : Except String Bool :=
  match compose p with
  | Except.error e => Except.error e
  | Except.ok hd =>
    match save p with
    | Except.error e => Except.error e
    | Except.ok _ => Except.ok hd

/-- Did a fallible step succeed? -/
def exceptOk {α : Type} (x : Except String α) : Bool :=
  match x with
  | Except.ok _ => true
  | Except.error _ => false

/-- Did the pair succeed with `has_difference = true`? -/
def outcomeIsDiff (compose : String → Except String Bool)
    (save : String → Except String Unit) (p : String) : Bool :=
  match pairOutcome compose save p with
  | Except.ok true => true
  | _ => false

/-- Did the pair succeed with `has_difference = false`? -/
def outcomeIsSame (compose : String → Except String Bool)
    (save : String → Except String Unit) (p : String) : Bool :=
  match pairOutcome compose save p with
  | Except.ok false => true
  | _ => false

theorem outcomeIsDiff_iff (compose : String → Except String Bool)
    (save : String → Except String Unit) (p : String) :
    outcomeIsDiff compose save p = true ↔
      pairOutcome compose save p = Except.ok true := by
  unfold outcomeIsDiff
  rcases pairOutcome compose save p with e | b
  · simp
  · cases b <;> simp

theorem outcomeIsSame_iff (compose : String → Except String Bool)
    (save : String → Except String Unit) (p : String) :
    outcomeIsSame compose save p = true ↔
      pairOutcome compose save p = Except.ok false := by
  unfold outcomeIsSame
  rcases pairOutcome compose save p with e | b
  · simp
  · cases b <;> simp

theorem exceptOk_pairOutcome_cases (compose : String → Except String Bool)
    (save : String → Except String Unit) (p : String) :
    exceptOk (pairOutcome compose save p) =
      (outcomeIsDiff compose save p || outcomeIsSame compose save p) := by
  unfold exceptOk outcomeIsDiff outcomeIsSame
  rcases pairOutcome compose save p with e | b
  · simp
  · cases b <;> simp

theorem processPairs_foldl_char (compose : String → Except String Bool)
    (save : String → Except String Unit) (ps : List String) :
    ∀ st : RunState,
    (ps.foldl (processPair compose save) st).filesWithDiff =
        st.filesWithDiff ++ ps.filter (outcomeIsDiff compose save) ∧
    (ps.foldl (processPair compose save) st).filesWithoutDiff =
        st.filesWithoutDiff ++ ps.filter (outcomeIsSame compose save) ∧
    (ps.foldl (processPair compose save) st).errors =
        st.errors ++ ps.filter (fun p => !exceptOk (pairOutcome compose save p)) ∧
    (ps.foldl (processPair compose save) st).processed =
        st.processed + (ps.filter (fun p => exceptOk (pairOutcome compose save p))).length ∧
    (ps.foldl (processPair compose save) st).saved =
        st.saved ++ (ps.filter (fun p => exceptOk (pairOutcome compose save p))).map
          (fun p => p ++ "_diff.png") ∧
    (ps.foldl (processPair compose save) st).saveAttempts =
        st.saveAttempts ++ ps.filter (fun p => exceptOk (compose p)) := by
  induction ps with
  | nil => intro st; simp
  | cons p ps ih =>
    intro st
    obtain ⟨i1, i2, i3, i4, i5, i6⟩ := ih (processPair compose save st p)
    rw [List.foldl_cons] at *
    rcases hc : compose p with e | hd
    · have hout : pairOutcome compose save p = Except.error e := by
        simp [pairOutcome, hc]
      have hpp : processPair compose save st p = {st with errors := st.errors ++ [p]} := by
        simp [processPair, hc]
      rw [hpp] at i1 i2 i3 i4 i5 i6
      refine ⟨?_, ?_, ?_, ?_, ?_, ?_⟩ <;>
        simp [hpp, i1, i2, i3, i4, i5, i6, List.filter_cons, hout, hc,
          outcomeIsDiff, outcomeIsSame, exceptOk]
    · rcases hs : save p with e | u
      · have hout : pairOutcome compose save p = Except.error e := by
          simp [pairOutcome, hc, hs]
        have hpp : processPair compose save st p =
            {st with saveAttempts := st.saveAttempts ++ [p],
                     errors := st.errors ++ [p]} := by
          simp [processPair, hc, hs]
        rw [hpp] at i1 i2 i3 i4 i5 i6
        refine ⟨?_, ?_, ?_, ?_, ?_, ?_⟩ <;>
          simp [hpp, i1, i2, i3, i4, i5, i6, List.filter_cons, hout, hc,
            outcomeIsDiff, outcomeIsSame, exceptOk]
      · have hout : pairOutcome compose save p = Except.ok hd := by
          simp [pairOutcome, hc, hs]
        cases hd with
        | true =>
          have hpp : processPair compose save st p =
              {st with saveAttempts := st.saveAttempts ++ [p],
                       saved := st.saved ++ [p ++ "_diff.png"],
                       processed := st.processed + 1,
                       filesWithDiff := st.filesWithDiff ++ [p]} := by
            simp [processPair, hc, hs]
          rw [hpp] at i1 i2 i3 i4 i5 i6
          refine ⟨?_, ?_, ?_, ?_, ?_, ?_⟩ <;>
            simp [hpp, i1, i2, i3, i4, i5, i6, List.filter_cons, hout, hc,
              outcomeIsDiff, outcomeIsSame, exceptOk] <;> omega
        | false =>
          have hpp : processPair compose save st p =
              {st with saveAttempts := st.saveAttempts ++ [p],
                       saved := st.saved ++ [p ++ "_diff.png"],
                       processed := st.processed + 1,
                       filesWithoutDiff := st.filesWithoutDiff ++ [p]} := by
            simp [processPair, hc, hs]
          rw [hpp] at i1 i2 i3 i4 i5 i6
          refine ⟨?_, ?_, ?_, ?_, ?_, ?_⟩ <;>
            simp [hpp, i1, i2, i3, i4, i5, i6, List.filter_cons, hout, hc,
              outcomeIsDiff, outcomeIsSame, exceptOk] <;> omega

theorem length_filter_ok (compose : String → Except String Bool)
    (save : String → Except String Unit) (ps : List String) :
    (ps.filter (fun p => exceptOk (pairOutcome compose save p))).length =
      (ps.filter (outcomeIsDiff compose save)).length +
      (ps.filter (outcomeIsSame compose save)).length := by
  induction ps with
  | nil => simp
  | cons q ps ih =>
    simp only [List.filter_cons]
    rcases hq : pairOutcome compose save q with e | b
    · rw [if_neg (by simp [exceptOk, hq]), if_neg (by simp [outcomeIsDiff, hq]),
        if_neg (by simp [outcomeIsSame, hq])]
      exact ih
    · cases b
      · rw [if_pos (by simp [exceptOk, hq]), if_neg (by simp [outcomeIsDiff, hq]),
          if_pos (by simp [outcomeIsSame, hq]), List.length_cons, List.length_cons, ih]
        omega
      · rw [if_pos (by simp [exceptOk, hq]), if_pos (by simp [outcomeIsDiff, hq]),
          if_neg (by simp [outcomeIsSame, hq]), List.length_cons, List.length_cons, ih]
        omega

/-- C4: any error while processing a pair is caught: the pair's name is
logged, it lands in neither outcome bucket, the remaining pairs are still
processed (their membership in the buckets is unaffected), and `processed`
always equals the sum of the two buckets' sizes; a successful pair lands in
exactly one bucket, according to its flag. -/
theorem C4_error_isolation (compose : String → Except String Bool)
    (save : String → Except String Unit) (ps : List String) (p : String)
    (hp : p ∈ ps) :
    (processPairs compose save ps).processed =
      (processPairs compose save ps).filesWithDiff.length +
      (processPairs compose save ps).filesWithoutDiff.length ∧
    ((∃ e, pairOutcome compose save p = Except.error e) →
      p ∈ (processPairs compose save ps).errors ∧
      p ∉ (processPairs compose save ps).filesWithDiff ∧
      p ∉ (processPairs compose save ps).filesWithoutDiff) ∧
    (pairOutcome compose save p = Except.ok true →
      p ∈ (processPairs compose save ps).filesWithDiff ∧
      p ∉ (processPairs compose save ps).filesWithoutDiff) ∧
    (pairOutcome compose save p = Except.ok false →
      p ∈ (processPairs compose save ps).filesWithoutDiff ∧
      p ∉ (processPairs compose save ps).filesWithDiff) := by
  obtain ⟨c1, c2, c3, c4, c5, c6⟩ := processPairs_foldl_char compose save ps initState
  have hpp : processPairs compose save ps = ps.foldl (processPair compose save) initState := rfl
  rw [hpp, c1, c2, c3, c4]
  simp only [initState, List.nil_append, Nat.zero_add]
  refine ⟨length_filter_ok compose save ps, ?_, ?_, ?_⟩
  · intro ⟨e, he⟩
    refine ⟨?_, ?_, ?_⟩
    · exact List.mem_filter.mpr ⟨hp, by simp [exceptOk, he]⟩
    · intro hmem
      have := (List.mem_filter.mp hmem).2
      exact absurd ((outcomeIsDiff_iff compose save p).mp this) (by simp [he])
    · intro hmem
      have := (List.mem_filter.mp hmem).2
      exact absurd ((outcomeIsSame_iff compose save p).mp this) (by simp [he])
  · intro he
    refine ⟨List.mem_filter.mpr ⟨hp, (outcomeIsDiff_iff compose save p).mpr he⟩, ?_⟩
    intro hmem
    have := (List.mem_filter.mp hmem).2
    have h2 := (outcomeIsSame_iff compose save p).mp this
    rw [he] at h2
    exact absurd h2 (by simp)
  · intro he
    refine ⟨List.mem_filter.mpr ⟨hp, (outcomeIsSame_iff compose save p).mpr he⟩, ?_⟩
    intro hmem
    have := (List.mem_filter.mp hmem).2
    have h2 := (outcomeIsDiff_iff compose save p).mp this
    rw [he] at h2
    exact absurd h2 (by simp)

theorem string_append_cancel {a b c : String} (h : a ++ c = b ++ c) : a = b := by
  have hd : a.data ++ c.data = b.data ++ c.data := by
    rw [← String.data_append, ← String.data_append, h]
  have hab : a.data = b.data := List.append_cancel_right hd
  calc a = String.mk a.data := rfl
    _ = String.mk b.data := by rw [hab]
    _ = b := rfl

/-- C7: a pair whose processing fails leaves no `<name>_diff.png` artifact in
the output directory, and when the composition step itself raises, the save
step is never attempted at all — the save runs only after a successful
composition.  (The save oracle is atomic in this model; a partially written
file aborted mid-save is an OS-level behavior outside the embedding.) -/
theorem C7_no_partial_output (compose : String → Except String Bool)
    (save : String → Except String Unit) (ps : List String) (p : String)
    (_hp : p ∈ ps) (e : String)
    (hfail : pairOutcome compose save p = Except.error e) :
    (p ++ "_diff.png") ∉ (processPairs compose save ps).saved ∧
    (∀ e2, compose p = Except.error e2 →
      p ∉ (processPairs compose save ps).saveAttempts) := by
  obtain ⟨c1, c2, c3, c4, c5, c6⟩ := processPairs_foldl_char compose save ps initState
  have hpp : processPairs compose save ps =
      ps.foldl (processPair compose save) initState := rfl
  rw [hpp, c5, c6]
  simp only [initState, List.nil_append]
  constructor
  · intro hmem
    rcases List.mem_map.mp hmem with ⟨q, hq, heq⟩
    have hq2 := (List.mem_filter.mp hq).2
    have hqp : q = p := string_append_cancel heq
    rw [hqp, hfail] at hq2
    simp [exceptOk] at hq2
  · intro e2 he2 hmem
    have hmem2 := (List.mem_filter.mp hmem).2
    rw [he2] at hmem2
    simp [exceptOk] at hmem2

/-- One line of `difference_report.txt`'s numbers and lists, as a record:
total pair count, processed count, the two bucket sizes, and the two bucket
listings in processing order. -/
structure Report where
  total : Nat
  processed : Nat
  numWithDiff : Nat
  numWithoutDiff : Nat
  withDiffList : List String
  withoutDiffList : List String
deriving Repr, DecidableEq

/-- A listing section of the report: the bucket's names in processing order,
or the single line `"(None)"` when the bucket is empty. -/
def sectionLines (l : List String) : List String :=
  if l.isEmpty then ["(None)"] else l

/-- The observable outcome of one `compare_directories` run: the control-flow
console message (progress prints are not modelled; logged per-pair errors
live in `RunState.errors`), the per-pair output files written into the
output directory, and the report file content (`none` when
`difference_report.txt` is never created).  The output directory itself is
created by `output_dir.mkdir(exist_ok=True)` before any of this. -/
structure CompareResult where
  console : List String
  saved : List String
  report : Option Report
deriving Repr, DecidableEq

/-- The function `compare_directories`: index both directory listings, take the sorted
common keys; when there are none, print `"No matching images found!"` and
return before any per-pair work and before the report file is opened;
otherwise run the comparison loop and then always write the report. -/
def compare_directories (compose : String → Except String Bool)
    (save : String → Except String Unit)
    (entries1 entries2 : List String) : CompareResult :=
  if (matchedPrefixes entries1 entries2).isEmpty then
    { console := ["No matching images found!"], saved := [], report := none }
  else
    { console := [],
      saved := (processPairs compose save (matchedPrefixes entries1 entries2)).saved,
      report := some {
        total := (matchedPrefixes entries1 entries2).length,
        processed :=
          (processPairs compose save (matchedPrefixes entries1 entries2)).processed,
        numWithDiff :=
          (processPairs compose save (matchedPrefixes entries1 entries2)).filesWithDiff.length,
        numWithoutDiff :=
          (processPairs compose save (matchedPrefixes entries1 entries2)).filesWithoutDiff.length,
        withDiffList :=
          (processPairs compose save (matchedPrefixes entries1 entries2)).filesWithDiff,
        withoutDiffList :=
          (processPairs compose save (matchedPrefixes entries1 entries2)).filesWithoutDiff } }

/-- The exit status of `main`: 1 on a wrong argument count or a missing input
directory (each hit before any scanning), otherwise 0 —
`compare_directories` returns normally both in the empty-intersection case
and after a full run, and `main` then falls off the end. -/
def mainExitCode (argcOk dir1Exists dir2Exists : Bool) : Nat :=
  if !argcOk then 1
  else if !dir1Exists then 1
  else if !dir2Exists then 1
  else 0

/-- C6: with an empty prefix intersection the run prints
`"No matching images found!"`, writes no per-pair composite, creates no
report file, and the process exits with code 0. -/
theorem C6_empty_intersection (compose : String → Except String Bool)
    (save : String → Except String Unit) (entries1 entries2 : List String)
    (h : matchedPrefixes entries1 entries2 = []) :
    (compare_directories compose save entries1 entries2).console =
      ["No matching images found!"] ∧
    (compare_directories compose save entries1 entries2).saved = [] ∧
    (compare_directories compose save entries1 entries2).report = none ∧
    mainExitCode true true true = 0 := by
  unfold compare_directories
  rw [h]
  simp [mainExitCode]

/-- Concrete instantiation of `C6_empty_intersection`: two non-empty
directories with disjoint prefixes. -/
theorem C6_empty_intersection_witness :
    matchedPrefixes ["a_20250101_000000.png"] ["b_20250101_000000.png"] = [] ∧
    ((compare_directories (fun _ => Except.ok true) (fun _ => Except.ok ())
        ["a_20250101_000000.png"] ["b_20250101_000000.png"]).console =
      ["No matching images found!"] ∧
    (compare_directories (fun _ => Except.ok true) (fun _ => Except.ok ())
        ["a_20250101_000000.png"] ["b_20250101_000000.png"]).saved = [] ∧
    (compare_directories (fun _ => Except.ok true) (fun _ => Except.ok ())
        ["a_20250101_000000.png"] ["b_20250101_000000.png"]).report = none ∧
    mainExitCode true true true = 0) :=
  ⟨by decide,
   C6_empty_intersection (fun _ => Except.ok true) (fun _ => Except.ok ())
     ["a_20250101_000000.png"] ["b_20250101_000000.png"] (by decide)⟩

/-- C10: whenever the matched set is non-empty the report is written — even
if every pair errors out, in which case it records the total, a processed
count of 0, zero for both buckets, and `"(None)"` for both listing
sections. -/
theorem C10_report_always_written (compose : String → Except String Bool)
    (save : String → Except String Unit) (entries1 entries2 : List String)
    (h : matchedPrefixes entries1 entries2 ≠ []) :
    ∃ r : Report,
      (compare_directories compose save entries1 entries2).report = some r ∧
      r.total = (matchedPrefixes entries1 entries2).length ∧
      ((∀ p ∈ matchedPrefixes entries1 entries2,
          ∃ e, pairOutcome compose save p = Except.error e) →
        r.processed = 0 ∧ r.numWithDiff = 0 ∧ r.numWithoutDiff = 0 ∧
        sectionLines r.withDiffList = ["(None)"] ∧
        sectionLines r.withoutDiffList = ["(None)"]) := by
  have hb : (matchedPrefixes entries1 entries2).isEmpty = false :=
    List.isEmpty_eq_false.mpr h
  unfold compare_directories
  rw [hb]
  simp only [Bool.false_eq_true, if_false]
  refine ⟨_, rfl, rfl, ?_⟩
  intro hall
  obtain ⟨c1, c2, c3, c4, c5, c6⟩ :=
    processPairs_foldl_char compose save (matchedPrefixes entries1 entries2) initState
  have hpp : processPairs compose save (matchedPrefixes entries1 entries2) =
      (matchedPrefixes entries1 entries2).foldl (processPair compose save) initState := rfl
  have hfd : (matchedPrefixes entries1 entries2).filter
      (outcomeIsDiff compose save) = [] := by
    rw [List.filter_eq_nil_iff]
    intro p hp hpred
    rcases hall p hp with ⟨e, he⟩
    rw [(outcomeIsDiff_iff compose save p).mp hpred] at he
    exact absurd he (by simp)
  have hfs : (matchedPrefixes entries1 entries2).filter
      (outcomeIsSame compose save) = [] := by
    rw [List.filter_eq_nil_iff]
    intro p hp hpred
    rcases hall p hp with ⟨e, he⟩
    rw [(outcomeIsSame_iff compose save p).mp hpred] at he
    exact absurd he (by simp)
  have hfo : (matchedPrefixes entries1 entries2).filter
      (fun p => exceptOk (pairOutcome compose save p)) = [] := by
    rw [List.filter_eq_nil_iff]
    intro p hp hpred
    rcases hall p hp with ⟨e, he⟩
    rw [he] at hpred
    simp [exceptOk] at hpred
  rw [hpp] at *
  refine ⟨?_, ?_, ?_, ?_, ?_⟩
  · rw [c4, hfo]
    simp [initState]
  · rw [c1, hfd]
    simp [initState]
  · rw [c2, hfs]
    simp [initState]
  · rw [c1, hfd]
    simp [initState, sectionLines]
  · rw [c2, hfs]
    simp [initState, sectionLines]

/-- Concrete instantiation of `C10_report_always_written`: one matched pair
whose composition always raises. -/
theorem C10_report_always_written_witness :
    matchedPrefixes ["a_20250101_000000.png"] ["a_20250102_000000.png"] ≠ [] ∧
    (∃ r : Report,
      (compare_directories (fun _ => Except.error "decode failed")
          (fun _ => Except.ok ())
          ["a_20250101_000000.png"] ["a_20250102_000000.png"]).report = some r ∧
      r.total = (matchedPrefixes ["a_20250101_000000.png"]
        ["a_20250102_000000.png"]).length ∧
      ((∀ p ∈ matchedPrefixes ["a_20250101_000000.png"] ["a_20250102_000000.png"],
          ∃ e, pairOutcome (fun _ => Except.error "decode failed")
            (fun _ => Except.ok ()) p = Except.error e) →
        r.processed = 0 ∧ r.numWithDiff = 0 ∧ r.numWithoutDiff = 0 ∧
        sectionLines r.withDiffList = ["(None)"] ∧
        sectionLines r.withoutDiffList = ["(None)"])) :=
  ⟨by decide,
   C10_report_always_written (fun _ => Except.error "decode failed")
     (fun _ => Except.ok ())
     ["a_20250101_000000.png"] ["a_20250102_000000.png"] (by decide)⟩

/-- Sample composition oracle for the concrete instantiations below: the pair
`"err"` raises during composition, every other pair composes successfully,
finding a difference exactly for `"d"`. -/
def composeSample : String → Except String Bool :=
  fun p => if p == "err" then Except.error "boom" else Except.ok (p == "d")

/-- Sample save oracle: always succeeds. -/
def saveSample : String → Except String Unit := fun _ => Except.ok ()

/-- Concrete instantiation of `C4_error_isolation`
(pairs `["d", "err", "s"]`, failing pair `"err"`). -/
theorem C4_error_isolation_witness :
    "err" ∈ (["d", "err", "s"] : List String) ∧
    ((processPairs composeSample saveSample ["d", "err", "s"]).processed =
      (processPairs composeSample saveSample ["d", "err", "s"]).filesWithDiff.length +
      (processPairs composeSample saveSample ["d", "err", "s"]).filesWithoutDiff.length ∧
    ((∃ e, pairOutcome composeSample saveSample "err" = Except.error e) →
      "err" ∈ (processPairs composeSample saveSample ["d", "err", "s"]).errors ∧
      "err" ∉ (processPairs composeSample saveSample ["d", "err", "s"]).filesWithDiff ∧
      "err" ∉ (processPairs composeSample saveSample ["d", "err", "s"]).filesWithoutDiff) ∧
    (pairOutcome composeSample saveSample "err" = Except.ok true →
      "err" ∈ (processPairs composeSample saveSample ["d", "err", "s"]).filesWithDiff ∧
      "err" ∉ (processPairs composeSample saveSample ["d", "err", "s"]).filesWithoutDiff) ∧
    (pairOutcome composeSample saveSample "err" = Except.ok false →
      "err" ∈ (processPairs composeSample saveSample ["d", "err", "s"]).filesWithoutDiff ∧
      "err" ∉ (processPairs composeSample saveSample ["d", "err", "s"]).filesWithDiff)) :=
  ⟨by decide,
   C4_error_isolation composeSample saveSample ["d", "err", "s"] "err" (by decide)⟩

/-- Concrete instantiation of `C7_no_partial_output`
(pairs `["d", "err", "s"]`, failing pair `"err"`). -/
theorem C7_no_partial_output_witness :
    ("err" ∈ (["d", "err", "s"] : List String) ∧
     pairOutcome composeSample saveSample "err" = Except.error "boom") ∧
    (("err" ++ "_diff.png") ∉
        (processPairs composeSample saveSample ["d", "err", "s"]).saved ∧
    (∀ e2, composeSample "err" = Except.error e2 →
      "err" ∉ (processPairs composeSample saveSample ["d", "err", "s"]).saveAttempts)) :=
  ⟨⟨by decide, rfl⟩,
   C7_no_partial_output composeSample saveSample ["d", "err", "s"] "err"
     (by decide) "boom" rfl⟩
